import Mathlib

/-!
Verification of the cross-platform key-value storage core of the `@johnqh/di`
library: the advanced TTL backend (`src/mocks/storage.mock.ts`,
`src/web/storage/storage.web.ts`), the capability-aware service, and the
memoizing storage factory.

JS `Map` objects are embedded as association lists (insertion order, first
occurrence wins on lookup); `Date.now()` timestamps and TTL durations are
embedded as `Int`; `undefined`/`null` become `Option`; JS truthiness tests on
numbers (`if (entry.ttl)`) become explicit `≠ 0` checks.
-/

namespace DI

/-- The `StorageType` enum from the library's core types
(`LOCAL_STORAGE = 'localStorage'`, `SESSION_STORAGE`, `ASYNC_STORAGE`,
`MEMORY`). -/
inductive StorageType where
  | LOCAL_STORAGE
  | SESSION_STORAGE
  | ASYNC_STORAGE
  | MEMORY
deriving DecidableEq, Repr

/-- `Map.get(k)`: value of the first binding of `k`, if any. -/
def alGet {κ α : Type} [DecidableEq κ] (k : κ) : List (κ × α) → Option α
  | [] => none
  | (k', v) :: rest => if k' = k then some v else alGet k rest

/-- `Map.set(k, v)`: replace the binding of `k` in place, else append. -/
def alSet {κ α : Type} [DecidableEq κ] (k : κ) (v : α) : List (κ × α) → List (κ × α)
  | [] => [(k, v)]
  | (k', v') :: rest => if k' = k then (k, v) :: rest else (k', v') :: alSet k v rest

/-- `Map.delete(k)`: drop the binding(s) of `k`. -/
def alDelete {κ α : Type} [DecidableEq κ] (k : κ) : List (κ × α) → List (κ × α)
  | [] => []
  | (k', v') :: rest => if k' = k then alDelete k rest else (k', v') :: alDelete k rest

theorem alGet_alSet_self {κ α : Type} [DecidableEq κ] (k : κ) (v : α) (l : List (κ × α)) :
    alGet k (alSet k v l) = some v := by
  induction l with
  | nil => simp [alGet, alSet]
  | cons hd tl ih =>
    obtain ⟨k', v'⟩ := hd
    by_cases h : k' = k
    · simp [alGet, alSet, h]
    · simp [alGet, alSet, h, ih]

theorem alGet_alSet_ne {κ α : Type} [DecidableEq κ] (k k' : κ) (v : α) (l : List (κ × α))
    (h : k' ≠ k) : alGet k (alSet k' v l) = alGet k l := by
  induction l with
  | nil => simp [alGet, alSet, h]
  | cons hd tl ih =>
    obtain ⟨k'', v''⟩ := hd
    by_cases h2 : k'' = k'
    · subst h2
      simp [alGet, alSet, h]
    · by_cases h3 : k'' = k <;> simp [alGet, alSet, h2, h3, ih, Ne.symm h]

theorem alGet_alDelete_self {κ α : Type} [DecidableEq κ] (k : κ) (l : List (κ × α)) :
    alGet k (alDelete k l) = none := by
  induction l with
  | nil => simp [alGet, alDelete]
  | cons hd tl ih =>
    obtain ⟨k', v'⟩ := hd
    by_cases h : k' = k <;> simp [alGet, alDelete, h, ih]

theorem alGet_alDelete_ne {κ α : Type} [DecidableEq κ] (k k' : κ) (l : List (κ × α))
    (h : k' ≠ k) : alGet k (alDelete k' l) = alGet k l := by
  induction l with
  | nil => simp [alGet, alDelete]
  | cons hd tl ih =>
    obtain ⟨k'', v''⟩ := hd
    by_cases h2 : k'' = k'
    · subst h2
      simp [alGet, alDelete, h, Ne.symm h, ih]
    · by_cases h3 : k'' = k <;> simp [alGet, alDelete, h2, h3, ih, Ne.symm h]

theorem alGet_eq_none_of_not_mem {κ α : Type} [DecidableEq κ] (k : κ) (l : List (κ × α))
    (h : k ∉ l.map Prod.fst) : alGet k l = none := by
  induction l with
  | nil => simp [alGet]
  | cons hd tl ih =>
    obtain ⟨k', v'⟩ := hd
    simp only [List.map_cons, List.mem_cons] at h
    push_neg at h
    simp [alGet, Ne.symm h.1, ih h.2]

theorem alGet_isSome_iff_mem {κ α : Type} [DecidableEq κ] (k : κ) (l : List (κ × α)) :
    (alGet k l).isSome = true ↔ k ∈ l.map Prod.fst := by
  induction l with
  | nil => simp [alGet]
  | cons hd tl ih =>
    obtain ⟨k', v'⟩ := hd
    by_cases h : k' = k
    · simp [alGet, h]
    · simp [alGet, h, ih, Ne.symm h]

/-- `StorageEntry` of `MockAdvancedPlatformStorage`:
`{ value: string; ttl?: number; createdAt: number }`. -/
structure StorageEntry where
  value : String
  ttl : Option Int
  createdAt : Int
deriving DecidableEq, Repr

/-- Store of `MockAdvancedPlatformStorage` (`Map<string, StorageEntry>`). -/
abbrev MockAdvStore := List (String × StorageEntry)

/-- The expiry test `entry.ttl && Date.now() - entry.createdAt > entry.ttl`:
an unset or zero `ttl` is falsy, so it disables the check entirely. -/
def entryExpired (now : Int) (e : StorageEntry) : Bool :=
  match e.ttl with
  | none => false
  | some t => t != 0 && decide (now - e.createdAt > t)

/-- `MockAdvancedPlatformStorage.setItem(key, value, ttl?)`. -/
def mockSetItem (now : Int) (store : MockAdvStore) (key value : String)
    (ttl : Option Int) : MockAdvStore :=
  alSet key ⟨value, ttl, now⟩ store

/-- `MockAdvancedPlatformStorage.getItem(key)`: returns the value of a live
entry; an expired entry is deleted and `null` is returned. The pair carries
the store after the call. -/
def mockGetItem (now : Int) (store : MockAdvStore) (key : String) :
    Option String × MockAdvStore :=
  match alGet key store with
  | none => (none, store)
  | some e =>
    if entryExpired now e then (none, alDelete key store) else (some e.value, store)

/-- `MockAdvancedPlatformStorage.hasItem(key)`: same expiry logic as
`getItem`, returning a Boolean. -/
def mockHasItem (now : Int) (store : MockAdvStore) (key : String) :
    Bool × MockAdvStore :=
  match alGet key store with
  | none => (false, store)
  | some e =>
    if entryExpired now e then (false, alDelete key store) else (true, store)

/-- The validity test of `MockAdvancedPlatformStorage.getAllKeys`:
`!entry.ttl || now - entry.createdAt <= entry.ttl`. -/
def mockEntryValid (now : Int) (e : StorageEntry) : Bool :=
  match e.ttl with
  | none => true
  | some t => t == 0 || decide (now - e.createdAt ≤ t)

/-- `MockAdvancedPlatformStorage.getAllKeys()`: filters out expired keys.
It only reads the store (the source pushes surviving keys into a fresh
array and never calls `delete`). -/
def mockGetAllKeys (now : Int) (store : MockAdvStore) : List String :=
  (store.filter (fun p => mockEntryValid now p.2)).map Prod.fst

theorem mockEntryValid_eq_not_expired (now : Int) (e : StorageEntry) :
    mockEntryValid now e = !entryExpired now e := by
  unfold mockEntryValid entryExpired
  cases e.ttl with
  | none => rfl
  | some t =>
    by_cases h : t = 0
    · simp [h]
    · by_cases h2 : now - e.createdAt ≤ t
      · simp [h, h2, not_lt.mpr h2]
      · simp [h, h2, lt_of_not_le h2, bne]

/-- The envelope object built by `AdvancedWebStorage.setItem`:
`{ value, timestamp: Date.now(), ttl }`. -/
structure WebItem where
  value : String
  timestamp : Int
  ttl : Option Int
deriving DecidableEq, Repr

/-- Backing store of `AdvancedWebStorage`. The underlying `WebStorage`
(sessionStorage) maps keys to the JSON strings of `WebItem` envelopes;
`JSON.parse`/`JSON.stringify` are a platform bijection on that image, so the
store is embedded at the parsed level (the concrete string form is
`stringifyItem` below). -/
abbrev WebRawStore := List (String × WebItem)

/-- The expiry test of `AdvancedWebStorage.getItem`:
`item.ttl && Date.now() - item.timestamp > item.ttl` (`0` is falsy). -/
def webItemExpired (now : Int) (it : WebItem) : Bool :=
  match it.ttl with
  | none => false
  | some t => t != 0 && decide (now - it.timestamp > t)

/-- `AdvancedWebStorage.setItem(key, value, ttl?)`. -/
def webSetItem (now : Int) (raw : WebRawStore) (key value : String)
    (ttl : Option Int) : WebRawStore :=
  alSet key ⟨value, now, ttl⟩ raw

/-- `AdvancedWebStorage.getItem(key)`: parses the stored envelope, deletes
and reports `null` if expired, else returns the wrapped value. -/
def webGetItem (now : Int) (raw : WebRawStore) (key : String) :
    Option String × WebRawStore :=
  match alGet key raw with
  | none => (none, raw)
  | some it =>
    if webItemExpired now it then (none, alDelete key raw) else (some it.value, raw)

/-- `AdvancedWebStorage.hasItem(key)`: `this.storage.getItem(key) !== null` —
raw presence in the underlying store, with no TTL check. -/
def webHasItem (raw : WebRawStore) (key : String) : Bool :=
  (alGet key raw).isSome

/-- `AdvancedWebStorage.getAllKeys()`: delegates to the underlying
`WebStorage.getAllKeys`, which lists every raw key with no TTL check and no
deletion. -/
def webGetAllKeys (raw : WebRawStore) : List String :=
  raw.map Prod.fst

/-- The characters that carry regex meaning in a JavaScript pattern source. -/
def regexMeta : List Char :=
  ['.', '*', '+', '?', '(', ')', '[', ']', '\x7b', '\x7d', '^', '$', '|', '\\']

/-- One token of the regex `'^' + pattern.replace(/\*/g, '.*') + '$'`
compiled by `MockAdvancedPlatformStorage.clearPattern`: a literal character,
or the `.*` produced from a `*` wildcard. -/
inductive GTok where
  | lit (c : Char)
  | dotStar
deriving DecidableEq, Repr

/-- ECMAScript line terminators — the characters that `.` (and hence the
`.*` produced from `*`) never matches in a regex without the `s` flag. -/
def isLineTerm (c : Char) : Bool :=
  c = '\n' || c = '\r' || c.toNat = 0x2028 || c.toNat = 0x2029

/-- What one step of `.*` may consume: any character except a line
terminator. -/
def dotMatch (c : Char) : Bool :=
  !isLineTerm c

/-- A pattern character inside the modelled regex fragment: `*` (compiled to
`.*`) or a character with no regex meaning (compiled to a literal). -/
def patCharOk (c : Char) : Bool :=
  c == '*' || !(regexMeta.contains c)

/-- The construction `new RegExp('^' + pattern.replace(/\*/g, '.*') + '$')`
in `MockAdvancedPlatformStorage.clearPattern`, modelled with three faithful
verdicts: a pattern of wildcard and regex-literal characters compiles to its
token list; a pattern containing `(` but neither `)` nor `[` nor `\`
always leaves the group unterminated (a `(` can only lose its meaning by
being escaped or placed in a character class), so the constructor throws a
`SyntaxError`; any other pattern uses regex features outside this model and
gets no verdict (`none`) — no theorem relies on those. -/
def compileGlob (ps : List Char) : Option (Except String (List GTok)) :=
  if ps.all patCharOk then
    some (Except.ok (ps.map (fun c => if c = '*' then GTok.dotStar else GTok.lit c)))
  else if ps.contains '(' && !ps.contains ')' && !ps.contains '[' && !ps.contains '\\' then
    some (Except.error "SyntaxError")
  else
    none

/-- `regex.test(key)` for a compiled `^…$` regex of literals and `.*`: an
anchored backtracking matcher (for these regexes a match exists iff the JS
engine finds one); each character consumed by `.*` must not be a line
terminator. -/
def gmatch (ts : List GTok) (ks : List Char) : Bool :=
  match ts, ks with
  | [], [] => true
  | [], _ :: _ => false
  | GTok.lit c :: ts', ks =>
    match ks with
    | [] => false
    | k :: ks' => c == k && gmatch ts' ks'
  | GTok.dotStar :: ts', ks =>
    gmatch ts' ks ||
      (match ks with
       | [] => false
       | k :: ks' => dotMatch k && gmatch (GTok.dotStar :: ts') ks')
termination_by (ks.length, ts.length)

/-- `MockAdvancedPlatformStorage.clearPattern(pattern?)`: a missing or empty
pattern (`if (!pattern)`) clears the whole store before any regex is built;
otherwise the regex is compiled — a `SyntaxError` escapes to the caller,
there being no try/catch — and every key matched by the compiled anchored
regex is deleted. The outer `none` marks patterns outside the modelled
regex fragment. -/
def mockClearPattern (p : Option String) (store : MockAdvStore) :
    Option (Except String MockAdvStore) :=
  match p with
  | none => some (Except.ok [])
  | some pat =>
    if pat = "" then some (Except.ok [])
    else
      match compileGlob pat.data with
      | none => none
      | some (Except.error e) => some (Except.error e)
      | some (Except.ok ts) =>
        some (Except.ok ((store.map Prod.fst).foldl
          (fun acc k => if gmatch ts k.data then alDelete k acc else acc) store))

/-- Whether `sub` is a prefix of `l` (character lists). -/
def isPrefixL : List Char → List Char → Bool
  | [], _ => true
  | _ :: _, [] => false
  | a :: as, b :: bs => a == b && isPrefixL as bs

/-- Whether `sub` occurs contiguously inside `l` — the semantics of
JavaScript's `String.prototype.includes`. -/
def isInfixL (sub : List Char) : List Char → Bool
  | [] => sub.isEmpty
  | b :: bs => isPrefixL sub (b :: bs) || isInfixL sub bs

/-- `AdvancedWebStorage.clearPattern(pattern?)`: a missing or empty pattern
clears the whole store; otherwise it iterates `getAllKeys()` and removes each
key with `key.includes(pattern)` — a literal substring test, not a wildcard
match. -/
def webClearPattern (p : Option String) (raw : WebRawStore) : WebRawStore :=
  match p with
  | none => []
  | some pat =>
    if pat = "" then []
    else
      (webGetAllKeys raw).foldl
        (fun acc k => if isInfixL pat.data k.data then alDelete k acc else acc) raw

theorem alGet_foldl_delete {α : Type} (m : String → Bool) (keys : List String)
    (store : List (String × α)) (k : String) :
    alGet k (keys.foldl (fun acc k' => if m k' then alDelete k' acc else acc) store) =
      if m k = true ∧ k ∈ keys then none else alGet k store := by
  induction keys generalizing store with
  | nil => simp
  | cons k' rest ih =>
    simp only [List.foldl_cons]
    rw [ih]
    by_cases hm : m k = true
    · by_cases hk : k ∈ rest
      · simp [hm, hk]
      · by_cases he : k' = k
        · subst he
          simp [hm, alGet_alDelete_self]
        · by_cases hm' : m k' = true <;>
            simp [hm, hk, he, hm', alGet_alDelete_ne _ _ _ he, Ne.symm he]
    · by_cases hm' : m k' = true
      · by_cases he : k' = k
        · subst he
          exact absurd hm' hm
        · simp [hm, hm', alGet_alDelete_ne _ _ _ he]
      · simp [hm, hm']

theorem mockClearPattern_run (pat : String) (ts : List GTok) (hp : pat ≠ "")
    (hc : compileGlob pat.data = some (Except.ok ts)) (store : MockAdvStore)
    (k : String) :
    ∃ store', mockClearPattern (some pat) store = some (Except.ok store') ∧
      alGet k store' = if gmatch ts k.data then none else alGet k store := by
  have hrun : mockClearPattern (some pat) store = some (Except.ok
      ((store.map Prod.fst).foldl
        (fun acc k' => if gmatch ts k'.data then alDelete k' acc else acc) store)) := by
    simp [mockClearPattern, hp, hc]
  refine ⟨_, hrun, ?_⟩
  rw [alGet_foldl_delete]
  by_cases hg : gmatch ts k.data = true
  · by_cases hk : k ∈ store.map Prod.fst
    · simp [hg, hk]
    · simp [hg, hk, alGet_eq_none_of_not_mem k store hk]
  · simp [hg]

theorem webClearPattern_get (pat : String) (hp : pat ≠ "") (raw : WebRawStore)
    (k : String) :
    alGet k (webClearPattern (some pat) raw) =
      if isInfixL pat.data k.data then none else alGet k raw := by
  simp only [webClearPattern, webGetAllKeys]
  rw [if_neg hp, alGet_foldl_delete]
  by_cases hg : isInfixL pat.data k.data = true
  · by_cases hk : k ∈ raw.map Prod.fst
    · simp [hg, hk]
    · simp [hg, hk, alGet_eq_none_of_not_mem k raw hk]
  · simp [hg]

theorem gmatch_nil_nil : gmatch [] [] = true := by
  rw [gmatch.eq_def]

theorem gmatch_nil_cons (k : Char) (ks : List Char) : gmatch [] (k :: ks) = false := by
  rw [gmatch.eq_def]

theorem gmatch_dotStar_all (ks : List Char) :
    gmatch [GTok.dotStar] ks = ks.all dotMatch := by
  induction ks with
  | nil =>
    rw [gmatch.eq_def]
    simp [gmatch_nil_nil]
  | cons k ks' ih =>
    rw [gmatch.eq_def]
    simp [gmatch_nil_cons, ih]

theorem gmatch_lits_star (lit : List Char) (ks : List Char) :
    gmatch (lit.map GTok.lit ++ [GTok.dotStar]) ks =
      (isPrefixL lit ks && (ks.drop lit.length).all dotMatch) := by
  induction lit generalizing ks with
  | nil => simp [isPrefixL, gmatch_dotStar_all]
  | cons c lit' ih =>
    cases ks with
    | nil =>
      rw [gmatch.eq_def]
      simp [isPrefixL]
    | cons k ks' =>
      rw [gmatch.eq_def]
      simp [isPrefixL, ih, Bool.and_assoc]

/-- Declarative semantics of a compiled pattern, following the spec's words
plus the regex dot rule: the whole key is matched, a literal token matches
exactly itself, and `.*` (from `*`) consumes zero or more characters, none
of which is a line terminator. -/
inductive GlobSem : List GTok → List Char → Prop where
  | empty : GlobSem [] []
  | lit {c : Char} {ts : List GTok} {ks : List Char} :
      GlobSem ts ks → GlobSem (GTok.lit c :: ts) (c :: ks)
  | starSkip {ts : List GTok} {ks : List Char} :
      GlobSem ts ks → GlobSem (GTok.dotStar :: ts) ks
  | starTake {ts : List GTok} {k : Char} {ks : List Char} :
      isLineTerm k = false → GlobSem (GTok.dotStar :: ts) ks →
      GlobSem (GTok.dotStar :: ts) (k :: ks)

theorem gmatch_iff_GlobSem (ts : List GTok) (ks : List Char) :
    gmatch ts ks = true ↔ GlobSem ts ks := by
  constructor
  · induction ts, ks using gmatch.induct with
    | case1 => intro _; exact GlobSem.empty
    | case2 k ks' => intro h; simp [gmatch_nil_cons] at h
    | case3 c ts' =>
      intro h
      rw [gmatch.eq_def] at h
      simp at h
    | case4 c ts' k ks' ih =>
      intro h
      rw [gmatch.eq_def] at h
      simp only [Bool.and_eq_true, beq_iff_eq] at h
      obtain ⟨he, h2⟩ := h
      subst he
      exact GlobSem.lit (ih h2)
    | case5 ts' ks ih1 ih2 =>
      intro h
      cases ks with
      | nil =>
        rw [gmatch.eq_def] at h
        simp at h
        exact GlobSem.starSkip (ih1 h)
      | cons k ks' =>
        rw [gmatch.eq_def] at h
        simp only [Bool.or_eq_true, Bool.and_eq_true] at h
        rcases h with h1 | ⟨hd, h1⟩
        · exact GlobSem.starSkip (ih1 h1)
        · have hlt : isLineTerm k = false := by
            simpa [dotMatch] using hd
          exact GlobSem.starTake hlt (ih2 h1)
  · intro h
    induction h with
    | empty => exact gmatch_nil_nil
    | lit _ ih =>
      rw [gmatch.eq_def]
      simp [ih]
    | starSkip _ ih =>
      rw [gmatch.eq_def]
      simp [ih]
    | starTake hlt _ ih =>
      rw [gmatch.eq_def]
      simp [ih, dotMatch, hlt]

/-- Lowercase hexadecimal digit, as produced by `JSON.stringify`'s `\u`
escapes. -/
def hexDigit (n : Nat) : Char :=
  if n < 10 then Char.ofNat (48 + n) else Char.ofNat (87 + n)

/-- `JSON.stringify`'s escaping of one character inside a string literal
(platform builtin, modelled). -/
def escChar (c : Char) : List Char :=
  if c = '"' then ['\\', '"']
  else if c = '\\' then ['\\', '\\']
  else if c = '\n' then ['\\', 'n']
  else if c = '\r' then ['\\', 'r']
  else if c = '\t' then ['\\', 't']
  else if c.toNat = 8 then ['\\', 'b']
  else if c.toNat = 12 then ['\\', 'f']
  else if c.toNat < 32 then
    ['\\', 'u', '0', '0', hexDigit (c.toNat / 16), hexDigit (c.toNat % 16)]
  else [c]

/-- `JSON.stringify` of the envelope built by `AdvancedWebStorage.setItem`:
`\x7b"value":…,"timestamp":…\x7d` with the `ttl` field omitted when
`undefined` (insertion order `value`, `timestamp`, `ttl`). -/
def stringifyItem (it : WebItem) : String :=
  ⟨"\x7b\"value\":\"".data ++ it.value.data.flatMap escChar ++ "\",\"timestamp\":".data
    ++ (toString it.timestamp).data
    ++ (match it.ttl with
        | none => []
        | some t => ",\"ttl\":".data ++ (toString t).data)
    ++ ['\x7d']⟩

/-- `AdvancedWebStorage.setItem` seen at the level of the backing
`sessionStorage`: the string handed to `WebStorage.setItem` is
`JSON.stringify(item)`, never the bare value. -/
def webSetItemPersisted (now : Int) (pers : List (String × String))
    (key value : String) (ttl : Option Int) : List (String × String) :=
  alSet key (stringifyItem ⟨value, now, ttl⟩) pers

theorem isPrefixL_append (sub rest : List Char) : isPrefixL sub (sub ++ rest) = true := by
  induction sub with
  | nil => simp [isPrefixL]
  | cons c cs ih => simp [isPrefixL, ih]

theorem isInfixL_self_append (sub b : List Char) : isInfixL sub (sub ++ b) = true := by
  cases sub with
  | nil => cases b <;> simp [isInfixL, isPrefixL]
  | cons c cs =>
    have h := isPrefixL_append (c :: cs) b
    simp only [List.cons_append] at h
    simp [isInfixL, h]

theorem isInfixL_append_of (a sub b : List Char) : isInfixL sub (a ++ (sub ++ b)) = true := by
  induction a with
  | nil => simpa using isInfixL_self_append sub b
  | cons x a' ih => simp [isInfixL, ih]

theorem escChar_length_pos (c : Char) : 1 ≤ (escChar c).length := by
  unfold escChar
  repeat' split
  all_goals simp

theorem flatMap_escChar_length (l : List Char) : l.length ≤ (l.flatMap escChar).length := by
  induction l with
  | nil => simp
  | cons c cs ih =>
    have := escChar_length_pos c
    simp only [List.flatMap_cons, List.length_append, List.length_cons]
    omega

theorem stringifyItem_length_gt (it : WebItem) :
    it.value.length < (stringifyItem it).length := by
  obtain ⟨v, ts, ttl⟩ := it
  have hv := flatMap_escChar_length v.data
  have hd : v.length = v.data.length := rfl
  cases ttl with
  | none =>
    have he : (stringifyItem ⟨v, ts, none⟩).length =
        ("\x7b\"value\":\"".data ++ v.data.flatMap escChar ++ "\",\"timestamp\":".data
          ++ (toString ts).data ++ ([] : List Char) ++ ['\x7d']).length := rfl
    rw [hd, he]
    simp only [List.length_append, List.length_cons, List.length_nil]
    omega
  | some t =>
    have he : (stringifyItem ⟨v, ts, some t⟩).length =
        ("\x7b\"value\":\"".data ++ v.data.flatMap escChar ++ "\",\"timestamp\":".data
          ++ (toString ts).data ++ (",\"ttl\":".data ++ (toString t).data)
          ++ ['\x7d']).length := rfl
    rw [hd, he]
    simp only [List.length_append, List.length_cons, List.length_nil]
    omega

theorem stringifyItem_ne_value (it : WebItem) : stringifyItem it ≠ it.value := by
  intro h
  have h2 := stringifyItem_length_gt it
  rw [h] at h2
  exact lt_irrefl _ h2

/-- State of `MockStorageService`: a plain string store, an availability
flag, and the reported `StorageType`. -/
structure MockServiceState where
  store : List (String × String)
  available : Bool
  storageType : StorageType
deriving DecidableEq, Repr

/-- Initial `MockStorageService` (empty store, available, `MEMORY`). -/
def mockServiceInit : MockServiceState := ⟨[], true, StorageType.MEMORY⟩

/-- `MockStorageService.getItem` (no availability check in the source). -/
def msGetItem (s : MockServiceState) (key : String) : Option String :=
  alGet key s.store

/-- `MockStorageService.setItem` (no availability check in the source). -/
def msSetItem (s : MockServiceState) (key value : String) : MockServiceState :=
  { s with store := alSet key value s.store }

/-- `MockStorageService.removeItem` (no availability check in the source). -/
def msRemoveItem (s : MockServiceState) (key : String) : MockServiceState :=
  { s with store := alDelete key s.store }

/-- `MockStorageService.clear`. -/
def msClear (s : MockServiceState) : MockServiceState :=
  { s with store := [] }

/-- `MockStorageService.getAllKeys`. -/
def msGetAllKeys (s : MockServiceState) : List String :=
  s.store.map Prod.fst

/-- `MockStorageService.isAvailable`. -/
def msIsAvailable (s : MockServiceState) : Bool :=
  s.available

/-- `MockStorageService.getType`. -/
def msGetType (s : MockServiceState) : StorageType :=
  s.storageType

/-- Test helper `MockStorageService.setAvailable`. -/
def msSetAvailable (s : MockServiceState) (b : Bool) : MockServiceState :=
  { s with available := b }

/-- Test helper `MockStorageService.setStorageType`. -/
def msSetStorageType (s : MockServiceState) (t : StorageType) : MockServiceState :=
  { s with storageType := t }

/-- One call of the `StorageService` surface, for stating invariants over
arbitrary operation sequences. -/
inductive MSOp where
  | setOp (k v : String)
  | getOp (k : String)
  | removeOp (k : String)
  | clearOp
  | keysOp
deriving DecidableEq, Repr

/-- State transition of one `StorageService` call (`getItem` and
`getAllKeys` are pure reads). -/
def msStep (s : MockServiceState) : MSOp → MockServiceState
  | .setOp k v => msSetItem s k v
  | .getOp _ => s
  | .removeOp k => msRemoveItem s k
  | .clearOp => msClear s
  | .keysOp => s

/-- Run a sequence of `StorageService` calls. -/
def msRun (s : MockServiceState) (ops : List MSOp) : MockServiceState :=
  ops.foldl msStep s

/-- State of `MockSerializedStorageService`. The mock keeps the stored
objects unserialized in a `Map<string, unknown>`; the element type is
irrelevant to the claims, so values are embedded as strings. -/
structure MockSerializedState where
  store : List (String × String)
deriving DecidableEq, Repr

/-- Initial `MockSerializedStorageService` (empty store). -/
def mockSerializedInit : MockSerializedState := ⟨[]⟩

/-- State of `MockStorageFactory`: the two independent memoization maps
plus a heap of created service instances. Instance identity is embedded as
a `Nat` id allocated from `nextId`. -/
structure FactoryState where
  defaultStorageType : StorageType
  storageInstances : List (StorageType × Nat)
  serializedInstances : List (StorageType × Nat)
  services : List (Nat × MockServiceState)
  serializedServices : List (Nat × MockSerializedState)
  nextId : Nat
deriving DecidableEq, Repr

/-- A fresh `MockStorageFactory`. -/
def factoryInit : FactoryState :=
  ⟨StorageType.MEMORY, [], [], [], [], 0⟩

/-- `MockStorageFactory.createStorage(type)`: return the memoized instance
if present, else construct a `MockStorageService`, call
`setStorageType(type)` on it, memoize and return it. -/
def createStorage (f : FactoryState) (t : StorageType) : Nat × FactoryState :=
  match alGet t f.storageInstances with
  | some id => (id, f)
  | none =>
    let id := f.nextId
    let svc := msSetStorageType mockServiceInit t
    (id, { f with storageInstances := alSet t id f.storageInstances,
                  services := alSet id svc f.services,
                  nextId := id + 1 })

/-- `MockStorageFactory.createSerializedStorage(type)`: memoized in a map
separate from `createStorage`'s. -/
def createSerializedStorage (f : FactoryState) (t : StorageType) : Nat × FactoryState :=
  match alGet t f.serializedInstances with
  | some id => (id, f)
  | none =>
    let id := f.nextId
    (id, { f with serializedInstances := alSet t id f.serializedInstances,
                  serializedServices := alSet id mockSerializedInit f.serializedServices,
                  nextId := id + 1 })

/-- `setItem` on the storage instance with identity `id` (state of the
other instances is untouched). -/
def factorySetItem (f : FactoryState) (id : Nat) (key value : String) : FactoryState :=
  match alGet id f.services with
  | none => f
  | some s => { f with services := alSet id (msSetItem s key value) f.services }

/-- Well-formedness of a factory state: memoized ids are below `nextId`,
distinct types hold distinct ids, and every memoized id points to a created
service reporting the type it was created for. -/
def FactoryWF (f : FactoryState) : Prop :=
  (∀ t id, alGet t f.storageInstances = some id → id < f.nextId) ∧
  (∀ t id, alGet t f.serializedInstances = some id → id < f.nextId) ∧
  (∀ t t' id, alGet t f.storageInstances = some id →
    alGet t' f.storageInstances = some id → t = t') ∧
  (∀ t id, alGet t f.storageInstances = some id →
    ∃ s, alGet id f.services = some s ∧ s.storageType = t)

theorem createStorage_service (f : FactoryState) (t : StorageType) (hwf : FactoryWF f) :
    ∃ s, alGet (createStorage f t).1 (createStorage f t).2.services = some s ∧
      s.storageType = t := by
  obtain ⟨hb, _, _, hty⟩ := hwf
  cases hm : alGet t f.storageInstances with
  | some id =>
    simp only [createStorage, hm]
    exact hty t id hm
  | none =>
    simp only [createStorage, hm]
    exact ⟨msSetStorageType mockServiceInit t, alGet_alSet_self _ _ _, rfl⟩

theorem FactoryWF_createStorage (f : FactoryState) (t : StorageType) (hwf : FactoryWF f) :
    FactoryWF (createStorage f t).2 := by
  obtain ⟨hb, hsb, hinj, hty⟩ := hwf
  cases hm : alGet t f.storageInstances with
  | some id =>
    simp only [createStorage, hm]
    exact ⟨hb, hsb, hinj, hty⟩
  | none =>
    simp only [createStorage, hm]
    unfold FactoryWF
    dsimp only
    refine ⟨?_, ?_, ?_, ?_⟩
    · intro t' id' h
      by_cases he : t = t'
      · subst he
        rw [alGet_alSet_self] at h
        cases h
        omega
      · rw [alGet_alSet_ne _ _ _ _ he] at h
        have := hb t' id' h
        omega
    · intro t' id' h
      have := hsb t' id' h
      omega
    · intro t1 t2 id' h1 h2
      by_cases he1 : t = t1
      · subst he1
        rw [alGet_alSet_self] at h1
        by_cases he2 : t = t2
        · exact he2
        · rw [alGet_alSet_ne _ _ _ _ he2] at h2
          have := hb t2 id' h2
          cases h1
          omega
      · rw [alGet_alSet_ne _ _ _ _ he1] at h1
        by_cases he2 : t = t2
        · subst he2
          rw [alGet_alSet_self] at h2
          have := hb t1 id' h1
          cases h2
          omega
        · rw [alGet_alSet_ne _ _ _ _ he2] at h2
          exact hinj t1 t2 id' h1 h2
    · intro t' id' h
      by_cases he : t = t'
      · subst he
        rw [alGet_alSet_self] at h
        cases h
        exact ⟨msSetStorageType mockServiceInit t, alGet_alSet_self _ _ _, rfl⟩
      · rw [alGet_alSet_ne _ _ _ _ he] at h
        obtain ⟨s, hs, hst⟩ := hty t' id' h
        have hlt := hb t' id' h
        have hne : f.nextId ≠ id' := by omega
        exact ⟨s, by rw [alGet_alSet_ne _ _ _ _ hne]; exact hs, hst⟩

theorem createStorage_memo (f : FactoryState) (t : StorageType) :
    createStorage (createStorage f t).2 t =
      ((createStorage f t).1, (createStorage f t).2) := by
  cases hm : alGet t f.storageInstances with
  | some id => simp only [createStorage, hm]
  | none => simp only [createStorage, hm, alGet_alSet_self]

theorem createStorage_fresh_ne (f : FactoryState) (t1 t2 : StorageType)
    (hwf : FactoryWF f) (hne : t1 ≠ t2) :
    (createStorage (createStorage f t1).2 t2).1 ≠ (createStorage f t1).1 := by
  obtain ⟨hb, hsb, hinj, hty⟩ := hwf
  cases hm1 : alGet t1 f.storageInstances with
  | some id1 =>
    cases hm2 : alGet t2 f.storageInstances with
    | some id2 =>
      simp only [createStorage, hm1, hm2]
      intro h
      exact hne (hinj t1 t2 id1 hm1 (h ▸ hm2))
    | none =>
      simp only [createStorage, hm1, hm2]
      have := hb t1 id1 hm1
      intro h
      omega
  | none =>
    have hget2 : alGet t2 (alSet t1 f.nextId f.storageInstances) =
        alGet t2 f.storageInstances := alGet_alSet_ne _ _ _ _ hne
    cases hm2 : alGet t2 f.storageInstances with
    | some id2 =>
      simp only [createStorage, hm1, hget2, hm2]
      have := hb t2 id2 hm2
      intro h
      omega
    | none =>
      simp only [createStorage, hm1, hget2, hm2]
      omega

theorem createSerializedStorage_memo (f : FactoryState) (t : StorageType) :
    createSerializedStorage (createSerializedStorage f t).2 t =
      ((createSerializedStorage f t).1, (createSerializedStorage f t).2) := by
  cases hm : alGet t f.serializedInstances with
  | some id => simp only [createSerializedStorage, hm]
  | none => simp only [createSerializedStorage, hm, alGet_alSet_self]

theorem createStorage_keeps_serialized (f : FactoryState) (t : StorageType) :
    (createStorage f t).2.serializedInstances = f.serializedInstances ∧
      (createStorage f t).2.serializedServices = f.serializedServices := by
  cases hm : alGet t f.storageInstances with
  | some id => simp [createStorage, hm]
  | none => simp [createStorage, hm]

theorem createSerializedStorage_keeps_storage (f : FactoryState) (t : StorageType) :
    (createSerializedStorage f t).2.storageInstances = f.storageInstances ∧
      (createSerializedStorage f t).2.services = f.services := by
  cases hm : alGet t f.serializedInstances with
  | some id => simp [createSerializedStorage, hm]
  | none => simp [createSerializedStorage, hm]

theorem factorySetItem_other (f : FactoryState) (id1 id2 : Nat) (k v : String)
    (hne : id1 ≠ id2) :
    alGet id2 (factorySetItem f id1 k v).services = alGet id2 f.services := by
  cases hm : alGet id1 f.services with
  | none => simp only [factorySetItem, hm]
  | some s =>
    simp only [factorySetItem, hm]
    exact alGet_alSet_ne _ _ _ _ hne

theorem msStep_storageType (s : MockServiceState) (op : MSOp) :
    (msStep s op).storageType = s.storageType := by
  cases op <;> rfl

theorem msRun_storageType (s : MockServiceState) (ops : List MSOp) :
    (msRun s ops).storageType = s.storageType := by
  induction ops generalizing s with
  | nil => rfl
  | cons op rest ih =>
    have h1 : msRun s (op :: rest) = msRun (msStep s op) rest := rfl
    rw [h1, ih, msStep_storageType]

/-- A store state reachable through the `Map` operations: keys are distinct. -/
def keysDistinct {α : Type} (l : List (String × α)) : Prop :=
  (l.map Prod.fst).Nodup

theorem mem_mockGetAllKeys_iff (now : Int) (store : MockAdvStore) (k : String)
    (h : keysDistinct store) :
    k ∈ mockGetAllKeys now store ↔ ((mockGetItem now store k).1).isSome = true := by
  induction store with
  | nil => simp [mockGetAllKeys, mockGetItem, alGet]
  | cons hd tl ih =>
    obtain ⟨k', e⟩ := hd
    have h1 : k' ∉ tl.map Prod.fst := by
      have := h
      unfold keysDistinct at this
      simp only [List.map_cons, List.nodup_cons] at this
      exact this.1
    have h2 : keysDistinct tl := by
      have := h
      unfold keysDistinct at this
      simp only [List.map_cons, List.nodup_cons] at this
      exact this.2
    by_cases he : k' = k
    · subst he
      by_cases hexp : entryExpired now e = true
      · have hmem : k' ∉ (tl.filter (fun p => mockEntryValid now p.2)).map Prod.fst := by
          intro hc
          apply h1
          simp only [List.mem_map, List.mem_filter] at hc
          obtain ⟨p, ⟨hp, _⟩, hfst⟩ := hc
          exact List.mem_map.mpr ⟨p, hp, hfst⟩
        simp [mockGetAllKeys, mockGetItem, alGet, hexp, hmem,
          mockEntryValid_eq_not_expired]
        intro x hx
        exact absurd (List.mem_map.mpr ⟨(k', x), hx, rfl⟩) h1
      · simp only [Bool.not_eq_true] at hexp
        simp [mockGetAllKeys, mockGetItem, alGet, hexp,
          mockEntryValid_eq_not_expired]
    · have hstep : ((mockGetItem now ((k', e) :: tl) k).1) = (mockGetItem now tl k).1 := by
        unfold mockGetItem
        simp only [alGet, if_neg he]
        cases alGet k tl with
        | none => rfl
        | some e' => by_cases hx : entryExpired now e' <;> simp [hx, alDelete]
      rw [hstep, ← ih h2]
      unfold mockGetAllKeys
      by_cases hv : mockEntryValid now e = true <;>
        simp [List.filter_cons, hv, Ne.symm he, mockGetAllKeys]

theorem mem_webGetAllKeys_iff (raw : WebRawStore) (k : String) :
    k ∈ webGetAllKeys raw ↔ webHasItem raw k = true := by
  unfold webGetAllKeys webHasItem
  exact (alGet_isSome_iff_mem k raw).symm

theorem mem_map_fst_filter_of_alGet {α : Type} (k : String) (l : List (String × α))
    (p : String × α → Bool) (e : α) (hg : alGet k l = some e) (hp : p (k, e) = true) :
    k ∈ (l.filter p).map Prod.fst := by
  induction l with
  | nil => simp [alGet] at hg
  | cons hd tl ih =>
    obtain ⟨k', v'⟩ := hd
    by_cases he : k' = k
    · subst he
      have hg' : v' = e := by simpa [alGet] using hg
      subst hg'
      simp [List.filter_cons, hp]
    · simp only [alGet, if_neg he] at hg
      by_cases hq : p (k', v') = true <;>
        simp [List.filter_cons, hq, ih hg]

theorem isInfixL_nil (l : List Char) : isInfixL [] l = true := by
  cases l <;> simp [isInfixL, isPrefixL]

theorem isPrefixL_extend (sub l b : List Char) (h : isPrefixL sub l = true) :
    isPrefixL sub (l ++ b) = true := by
  induction sub generalizing l with
  | nil => simp [isPrefixL]
  | cons c cs ih =>
    cases l with
    | nil => simp [isPrefixL] at h
    | cons x xs =>
      simp only [isPrefixL, Bool.and_eq_true, beq_iff_eq] at h
      obtain ⟨rfl, h2⟩ := h
      simp [isPrefixL, ih xs h2]

theorem isInfixL_append_left (sub a b : List Char) (h : isInfixL sub a = true) :
    isInfixL sub (a ++ b) = true := by
  induction a with
  | nil =>
    simp only [isInfixL, List.isEmpty_iff] at h
    subst h
    simpa using isInfixL_nil b
  | cons x a' ih =>
    simp only [isInfixL, Bool.or_eq_true] at h
    rcases h with h | h
    · have := isPrefixL_extend sub (x :: a') b h
      simp only [List.cons_append] at this
      simp [isInfixL, this]
    · simp [isInfixL, ih h]

theorem isInfixL_append_right (sub a b : List Char) (h : isInfixL sub b = true) :
    isInfixL sub (a ++ b) = true := by
  induction a with
  | nil => simpa
  | cons x a' ih => simp [isInfixL, ih]

instance {α : Type} (l : List (String × α)) : Decidable (keysDistinct l) :=
  inferInstanceAs (Decidable (l.map Prod.fst).Nodup)

/-- C1 counterexample: an entry stored with `ttl = 0` is returned by
`getItem` long after more than `ttl` has elapsed (`now - createdAt = 5 > 0`),
on both the mock and the web backend, where the claim requires "none". -/
theorem C1_counterexample :
    (mockGetItem 5 (mockSetItem 0 [] "k" "v" (some 0)) "k").1 = some "v" ∧
      (mockGetItem 5 (mockSetItem 0 [] "k" "v" (some 0)) "k").1 ≠ none ∧
      (webGetItem 5 (webSetItem 0 [] "k" "v" (some 0)) "k").1 = some "v" := by
  decide

/-- C1 (amended): after `setItem(key, value, ttl?)`, `getItem(key)` returns
exactly `value` while the entry is live — `ttl` unset, `ttl = 0` (the expiry
check tests JS truthiness, so `0` disables expiration), or
`now - createdAt ≤ ttl` — and returns none once `now - createdAt > ttl` for a
set, nonzero `ttl`; a non-live entry is never returned. Holds for
`MockAdvancedPlatformStorage` and `AdvancedWebStorage`. -/
theorem C1_amended (k v : String) (ttl : Option Int) (t0 now : Int)
    (store : MockAdvStore) (raw : WebRawStore) :
    ((ttl = none ∨ ttl = some 0 ∨ (∃ t, ttl = some t ∧ now - t0 ≤ t)) →
      (mockGetItem now (mockSetItem t0 store k v ttl) k).1 = some v ∧
      (webGetItem now (webSetItem t0 raw k v ttl) k).1 = some v) ∧
    (∀ t, ttl = some t → t ≠ 0 → now - t0 > t →
      (mockGetItem now (mockSetItem t0 store k v ttl) k).1 = none ∧
      (webGetItem now (webSetItem t0 raw k v ttl) k).1 = none) := by
  constructor
  · rintro (rfl | rfl | ⟨t, rfl, hle⟩)
    · constructor
      · simp [mockGetItem, mockSetItem, alGet_alSet_self, entryExpired]
      · simp [webGetItem, webSetItem, alGet_alSet_self, webItemExpired]
    · constructor
      · simp [mockGetItem, mockSetItem, alGet_alSet_self, entryExpired]
      · simp [webGetItem, webSetItem, alGet_alSet_self, webItemExpired]
    · have hf : ¬(now - t0 > t) := not_lt.mpr hle
      constructor
      · simp [mockGetItem, mockSetItem, alGet_alSet_self, entryExpired, hf]
      · simp [webGetItem, webSetItem, alGet_alSet_self, webItemExpired, hf]
  · rintro t rfl ht hgt
    constructor
    · simp [mockGetItem, mockSetItem, alGet_alSet_self, entryExpired, ht, hgt, bne]
    · simp [webGetItem, webSetItem, alGet_alSet_self, webItemExpired, ht, hgt, bne]

/-- C1 witness: live case at concrete inputs (`ttl = 2`, one tick elapsed). -/
theorem C1_witness :
    (mockGetItem 1 (mockSetItem 0 [] "k" "v" (some 2)) "k").1 = some "v" ∧
      (webGetItem 1 (webSetItem 0 [] "k" "v" (some 2)) "k").1 = some "v" :=
  (C1_amended "k" "v" (some 2) 0 1 [] []).1 (Or.inr (Or.inr ⟨2, rfl, by decide⟩))

/-- C9: an entry stored with `ttl = 0` behaves exactly like one with no TTL:
at every later time `getItem` returns the value, `hasItem` is true,
`getAllKeys` lists the key, and `getItem`'s result coincides with that of a
TTL-less write — on both the mock and the web backend. -/
theorem C9_ttl_zero_live (k v : String) (t0 now : Int) (store : MockAdvStore)
    (raw : WebRawStore) :
    (mockGetItem now (mockSetItem t0 store k v (some 0)) k).1 = some v ∧
    (mockHasItem now (mockSetItem t0 store k v (some 0)) k).1 = true ∧
    k ∈ mockGetAllKeys now (mockSetItem t0 store k v (some 0)) ∧
    (mockGetItem now (mockSetItem t0 store k v (some 0)) k).1 =
      (mockGetItem now (mockSetItem t0 store k v none) k).1 ∧
    (webGetItem now (webSetItem t0 raw k v (some 0)) k).1 = some v ∧
    webHasItem (webSetItem t0 raw k v (some 0)) k = true ∧
    k ∈ webGetAllKeys (webSetItem t0 raw k v (some 0)) := by
  refine ⟨?_, ?_, ?_, ?_, ?_, ?_, ?_⟩
  · simp [mockGetItem, mockSetItem, alGet_alSet_self, entryExpired]
  · simp [mockHasItem, mockSetItem, alGet_alSet_self, entryExpired]
  · exact mem_map_fst_filter_of_alGet k _ _ ⟨v, some 0, t0⟩
      (alGet_alSet_self _ _ _) (by simp [mockEntryValid])
  · simp [mockGetItem, mockSetItem, alGet_alSet_self, entryExpired]
  · simp [webGetItem, webSetItem, alGet_alSet_self, webItemExpired]
  · simp [webHasItem, webSetItem, alGet_alSet_self]
  · exact (mem_webGetAllKeys_iff _ k).mpr
      (by simp [webHasItem, webSetItem, alGet_alSet_self])

/-- C3 counterexample: on `AdvancedWebStorage`, for an entry written at time
0 with `ttl = 5` and read at time 10, `hasItem` reports true while `getItem`
reports none — they disagree on an expired key, contrary to the claim. -/
theorem C3_counterexample :
    webHasItem (webSetItem 0 [] "k" "v" (some 5)) "k" = true ∧
      (webGetItem 10 (webSetItem 0 [] "k" "v" (some 5)) "k").1 = none := by
  decide

/-- C3 (amended): on `MockAdvancedPlatformStorage`, `hasItem` and `getItem`
agree on existence in every state (and perform the same expiry deletion);
on `AdvancedWebStorage`, `hasItem` only checks raw presence, so agreement
holds in one direction: whenever `getItem` returns a value, `hasItem` is
true (the converse fails on expired entries). -/
theorem C3_amended (now : Int) (store : MockAdvStore) (raw : WebRawStore)
    (k : String) :
    ((mockHasItem now store k).1 = ((mockGetItem now store k).1).isSome ∧
      (mockHasItem now store k).2 = (mockGetItem now store k).2) ∧
    (((webGetItem now raw k).1).isSome = true → webHasItem raw k = true) := by
  constructor
  · unfold mockHasItem mockGetItem
    cases alGet k store with
    | none => exact ⟨rfl, rfl⟩
    | some e => by_cases h : entryExpired now e <;> simp [h]
  · unfold webGetItem webHasItem
    cases hg : alGet k raw with
    | none => simp
    | some it => intro _; simp

/-- C3 witness: the web one-directional agreement at a concrete live entry. -/
theorem C3_witness :
    webHasItem (webSetItem 0 [] "a" "x" none) "a" = true :=
  (C3_amended 0 [] (webSetItem 0 [] "a" "x" none) "a").2 (by decide)

/-- C2 counterexample: on `AdvancedWebStorage`, the key of an entry expired
at read time (written at 0 with `ttl = 5`, enumerated at 10 — `getItem`
already reports none) still appears in `getAllKeys()`, and the store is
untouched, contrary to "no expired key appears in its result" and to the
deletion side effect. -/
theorem C2_counterexample :
    webItemExpired 10 ⟨"v", 0, some 5⟩ = true ∧
      webGetAllKeys (webSetItem 0 [] "k" "v" (some 5)) = ["k"] ∧
      (webGetItem 10 (webSetItem 0 [] "k" "v" (some 5)) "k").1 = none := by
  decide

/-- C2 (amended): `MockAdvancedPlatformStorage.getAllKeys` checks every
stored entry and returns exactly the keys whose `getItem` currently returns
a value (the live keys), but deletes nothing — it is a pure read;
`AdvancedWebStorage.getAllKeys` returns every raw stored key — exactly those
with `hasItem` true — including expired ones, also deleting nothing. -/
theorem C2_amended (now : Int) (store : MockAdvStore) (raw : WebRawStore)
    (k : String) (h : keysDistinct store) :
    (k ∈ mockGetAllKeys now store ↔ ((mockGetItem now store k).1).isSome = true) ∧
    (k ∈ webGetAllKeys raw ↔ webHasItem raw k = true) :=
  ⟨mem_mockGetAllKeys_iff now store k h, mem_webGetAllKeys_iff raw k⟩

/-- C2 witness: concrete one-entry stores. -/
theorem C2_witness :
    ("a" ∈ mockGetAllKeys 3 (mockSetItem 0 [] "a" "x" none) ↔
        ((mockGetItem 3 (mockSetItem 0 [] "a" "x" none) "a").1).isSome = true) ∧
      ("a" ∈ webGetAllKeys (webSetItem 0 [] "a" "y" (some 5)) ↔
        webHasItem (webSetItem 0 [] "a" "y" (some 5)) "a" = true) :=
  C2_amended 3 (mockSetItem 0 [] "a" "x" none) (webSetItem 0 [] "a" "y" (some 5))
    "a" (by decide)

/-- C4 counterexample: on `AdvancedWebStorage`, `clearPattern("user:*")`
removes nothing from a store holding `"user:1"` and `"other"` — the key
`"user:1"` survives with its entry intact, because the web implementation
tests `key.includes(pattern)` literally instead of compiling the wildcard,
contrary to "removes every key with prefix user:". -/
theorem C4_counterexample :
    webClearPattern (some "user:*")
        (webSetItem 0 (webSetItem 0 [] "user:1" "x" none) "other" "z" none) =
      webSetItem 0 (webSetItem 0 [] "user:1" "x" none) "other" "z" none ∧
      alGet "user:1"
        (webClearPattern (some "user:*")
          (webSetItem 0 (webSetItem 0 [] "user:1" "x" none) "other" "z" none)) =
        some ⟨"x", 0, none⟩ := by
  decide

/-- C4 (amended): `MockAdvancedPlatformStorage.clearPattern(p)` compiles
`'^' + p.replace(/\*/g, '.*') + '$'` and removes exactly the keys the
compiled regex matches; on the modelled fragment (pattern characters are
`*` or regex-literal characters) this is an anchored full-key match in
which `*` matches zero or more characters none of which is a line
terminator and every other character matches only itself (the declarative
`GlobSem`). Hence `clearPattern("user:*")` removes exactly the keys with
prefix `user:` whose remainder contains no line terminator, and leaves all
other keys untouched; a pattern with other regex metacharacters may instead
throw (e.g. `"("` raises a `SyntaxError`). `AdvancedWebStorage.clearPattern(p)`
instead removes exactly the keys containing `p` as a literal substring. In
both, a missing pattern empties the store. -/
theorem C4_amended (pat : String) (ts : List GTok) (store : MockAdvStore)
    (raw : WebRawStore) (k : String) (hp : pat ≠ "")
    (hc : compileGlob pat.data = some (Except.ok ts)) :
    (∃ store', mockClearPattern (some pat) store = some (Except.ok store') ∧
      alGet k store' = if gmatch ts k.data then none else alGet k store) ∧
    (∀ ts' ks, gmatch ts' ks = true ↔ GlobSem ts' ks) ∧
    (compileGlob "user:*".data =
      some (Except.ok ("user:".data.map GTok.lit ++ [GTok.dotStar]))) ∧
    (∃ store', mockClearPattern (some "user:*") store = some (Except.ok store') ∧
      alGet k store' =
        if isPrefixL "user:".data k.data &&
            (k.data.drop "user:".data.length).all dotMatch
        then none else alGet k store) ∧
    (mockClearPattern none store = some (Except.ok [])) ∧
    (alGet k (webClearPattern (some pat) raw) =
        if isInfixL pat.data k.data then none else alGet k raw) ∧
    (webClearPattern none raw = []) := by
  refine ⟨mockClearPattern_run pat ts hp hc store k, gmatch_iff_GlobSem, rfl, ?_, rfl,
    webClearPattern_get pat hp raw k, rfl⟩
  obtain ⟨store', h1, h2⟩ := mockClearPattern_run "user:*"
    ("user:".data.map GTok.lit ++ [GTok.dotStar]) (by decide) rfl store k
  exact ⟨store', h1, by rw [h2, gmatch_lits_star]⟩

/-- C4 witness: the mock removes a key matching `"a*"`. -/
theorem C4_witness :
    ∃ store', mockClearPattern (some "a*") [("ab", ⟨"x", none, 0⟩)] =
        some (Except.ok store') ∧
      alGet "ab" store' = if gmatch [GTok.lit 'a', GTok.dotStar] "ab".data then none
        else alGet "ab" [("ab", ⟨"x", none, 0⟩)] :=
  (C4_amended "a*" [GTok.lit 'a', GTok.dotStar] [("ab", ⟨"x", none, 0⟩)] [] "ab"
    (by decide) rfl).1

/-- C5 counterexample: a `MockStorageService` holding `("k","v")` and
switched to `isAvailable() == false` still returns `"v"` from `getItem("k")`,
where the claim requires none. -/
theorem C5_counterexample :
    msIsAvailable (msSetAvailable (msSetItem mockServiceInit "k" "v") false) = false ∧
      msGetItem (msSetAvailable (msSetItem mockServiceInit "k" "v") false) "k" =
        some "v" := by
  decide

/-- C5 (amended): `MockStorageService` operations never consult the
availability flag: `getItem`/`setItem`/`removeItem` behave identically
whatever `isAvailable()` reports (so they never throw), but they are not
gated no-ops — with `isAvailable() == false`, `setItem` still writes (a
subsequent `getItem` returns the value), the service stays unavailable, and
`removeItem` still deletes. -/
theorem C5_amended (s : MockServiceState) (k v : String) (b : Bool) :
    (msGetItem (msSetAvailable s b) k = msGetItem s k) ∧
    ((msSetItem (msSetAvailable s b) k v).store = (msSetItem s k v).store) ∧
    ((msRemoveItem (msSetAvailable s b) k).store = (msRemoveItem s k).store) ∧
    (msIsAvailable s = false →
      msGetItem (msSetItem s k v) k = some v ∧
      msIsAvailable (msSetItem s k v) = false ∧
      msGetItem (msRemoveItem s k) k = none) := by
  refine ⟨rfl, rfl, rfl, ?_⟩
  intro hav
  refine ⟨?_, ?_, ?_⟩
  · simp [msGetItem, msSetItem, alGet_alSet_self]
  · simpa [msIsAvailable, msSetItem] using hav
  · simp [msGetItem, msRemoveItem, alGet_alDelete_self]

/-- C5 witness: a write against an unavailable service takes effect. -/
theorem C5_witness :
    msGetItem (msSetItem (msSetAvailable mockServiceInit false) "k" "v") "k" =
      some "v" :=
  ((C5_amended (msSetAvailable mockServiceInit false) "k" "v" false).2.2.2
    (by decide)).1

/-- C6: `MockStorageFactory` memoizes per storage type: a repeated
`createStorage(T)` returns the identical instance and leaves the factory
unchanged; two different types yield distinct instances; a write through one
instance leaves every other instance's state untouched; and
`createSerializedStorage` is memoized in its own map, independent of
`createStorage`'s. -/
theorem C6_memoization (f : FactoryState) (t t1 t2 : StorageType) (id1 id2 : Nat)
    (k v : String) (hwf : FactoryWF f) (hne : t1 ≠ t2) (hid : id1 ≠ id2) :
    (createStorage (createStorage f t).2 t =
      ((createStorage f t).1, (createStorage f t).2)) ∧
    ((createStorage (createStorage f t1).2 t2).1 ≠ (createStorage f t1).1) ∧
    (alGet id2 (factorySetItem f id1 k v).services = alGet id2 f.services) ∧
    ((createStorage f t).2.serializedInstances = f.serializedInstances) ∧
    ((createSerializedStorage f t).2.storageInstances = f.storageInstances) ∧
    (createSerializedStorage (createSerializedStorage f t).2 t =
      ((createSerializedStorage f t).1, (createSerializedStorage f t).2)) :=
  ⟨createStorage_memo f t, createStorage_fresh_ne f t1 t2 hwf hne,
    factorySetItem_other f id1 id2 k v hid,
    (createStorage_keeps_serialized f t).1,
    (createSerializedStorage_keeps_storage f t).1,
    createSerializedStorage_memo f t⟩

/-- An empty factory is well-formed. -/
theorem factoryInit_WF : FactoryWF factoryInit := by
  refine ⟨?_, ?_, ?_, ?_⟩
  · intro t id h
    simp [factoryInit, alGet] at h
  · intro t id h
    simp [factoryInit, alGet] at h
  · intro t t' id h1 h2
    simp [factoryInit, alGet] at h1
  · intro t id h
    simp [factoryInit, alGet] at h

/-- C6 witness: two distinct types from a fresh factory get distinct
instances. -/
theorem C6_witness :
    (createStorage (createStorage factoryInit StorageType.LOCAL_STORAGE).2
        StorageType.MEMORY).1 ≠
      (createStorage factoryInit StorageType.LOCAL_STORAGE).1 :=
  (C6_memoization factoryInit StorageType.MEMORY StorageType.LOCAL_STORAGE
    StorageType.MEMORY 0 1 "k" "v" factoryInit_WF (by decide) (by decide)).2.1

/-- Modelled from the spec: the concrete storage factory implementation
(`web-storage.service.ts`, referenced by the package exports and
architecture docs but absent from this snapshot's sources) holds a registry
of backends per `StorageType`; requesting a type with no registered backend
raises `UnsupportedStorageType`, and a registered type returns its backend. -/
def specFactoryCreateStorage (registry : List (StorageType × MockServiceState))
    (t : StorageType) : Except String MockServiceState :=
  match alGet t registry with
  | some svc => Except.ok svc
  | none => Except.error "Unsupported storage type"

/-- Whether a factory call raised. -/
def exceptRaises {ε α : Type} : Except ε α → Bool
  | Except.error _ => true
  | Except.ok _ => false

/-- C7 counterexample: the factory raise is not the sole raising operation
in the storage core — `MockAdvancedPlatformStorage.clearPattern("(")`
throws: the compiled source `'^($'` has an unterminated group, and there is
no try/catch around the `RegExp` constructor, so the `SyntaxError` escapes
to the caller. -/
theorem C7_counterexample :
    mockClearPattern (some "(") [("k", ⟨"v", none, 0⟩)] =
      some (Except.error "SyntaxError") := rfl

/-- C7 (amended): requesting a `StorageType` with no registered backend from
the factory raises an error; but it is not the sole raising operation in the
storage core: the advanced mock backend's `clearPattern` throws a
`SyntaxError` when the translated pattern is not a valid regular expression
(e.g. `clearPattern("(")`), while environmental failures still degrade to
soft results — a missing key makes `getItem` report none rather than fail. -/
theorem C7_amended (registry : List (StorageType × MockServiceState))
    (t : StorageType) (now : Int) (store store2 : MockAdvStore) (k : String) :
    (exceptRaises (specFactoryCreateStorage registry t) = true ↔
      alGet t registry = none) ∧
    (mockClearPattern (some "(") store2 = some (Except.error "SyntaxError")) ∧
    (alGet k store = none → (mockGetItem now store k).1 = none) := by
  refine ⟨?_, rfl, ?_⟩
  · unfold specFactoryCreateStorage
    cases hm : alGet t registry with
    | some svc => simp [exceptRaises]
    | none => simp [exceptRaises]
  · intro h
    simp [mockGetItem, h]

/-- C7 witness: a missing key degrades to none. -/
theorem C7_witness : (mockGetItem 0 [] "k").1 = none :=
  (C7_amended [] StorageType.LOCAL_STORAGE 0 [] [] "k").2.2 (by decide)

/-- C8 counterexample: the string actually persisted by
`AdvancedWebStorage.setItem("k","v",5)` at time 100 is
`\x7b"value":"v","timestamp":100,"ttl":5\x7d` — its timestamp field is named
`timestamp`, and the string contains no `createdAt` field, contrary to the
claim's envelope shape. -/
theorem C8_counterexample :
    alGet "k" (webSetItemPersisted 100 [] "k" "v" (some 5)) =
      some "\x7b\"value\":\"v\",\"timestamp\":100,\"ttl\":5\x7d" ∧
      isInfixL "createdAt".data
        (stringifyItem ⟨"v", 100, (some 5 : Option Int)⟩).data = false := by
  decide

/-- C8 (amended): for every TTL-capable entry written via
`AdvancedWebStorage.setItem`, the string written to the backing store is the
JSON envelope with fields `value` (the bare string), `timestamp` (the write
time), and `ttl` when one was given — never the bare value itself. -/
theorem C8_amended (pers : List (String × String)) (key value : String)
    (ttl : Option Int) (now : Int) :
    alGet key (webSetItemPersisted now pers key value ttl) =
      some (stringifyItem ⟨value, now, ttl⟩) ∧
    isInfixL "\"value\":".data (stringifyItem ⟨value, now, ttl⟩).data = true ∧
    isInfixL "\"timestamp\":".data (stringifyItem ⟨value, now, ttl⟩).data = true ∧
    (∀ t, ttl = some t →
      isInfixL "\"ttl\":".data (stringifyItem ⟨value, now, ttl⟩).data = true) ∧
    stringifyItem ⟨value, now, ttl⟩ ≠ value := by
  have hd : (stringifyItem ⟨value, now, ttl⟩).data =
      "\x7b\"value\":\"".data ++ value.data.flatMap escChar ++ "\",\"timestamp\":".data
        ++ (toString now).data
        ++ (match ttl with
            | none => []
            | some t => ",\"ttl\":".data ++ (toString t).data)
        ++ ['\x7d'] := rfl
  refine ⟨alGet_alSet_self _ _ _, ?_, ?_, ?_, stringifyItem_ne_value _⟩
  · rw [hd]
    simp only [List.append_assoc]
    exact isInfixL_append_left _ _ _ (by decide)
  · rw [hd]
    simp only [List.append_assoc]
    apply isInfixL_append_right
    apply isInfixL_append_right
    exact isInfixL_append_left _ _ _ (by decide)
  · rintro t rfl
    have hd2 : (stringifyItem ⟨value, now, some t⟩).data =
        "\x7b\"value\":\"".data ++ value.data.flatMap escChar ++ "\",\"timestamp\":".data
          ++ (toString now).data
          ++ (",\"ttl\":".data ++ (toString t).data)
          ++ ['\x7d'] := rfl
    rw [hd2]
    simp only [List.append_assoc]
    apply isInfixL_append_right
    apply isInfixL_append_right
    apply isInfixL_append_right
    apply isInfixL_append_right
    exact isInfixL_append_left _ _ _ (by decide)

/-- C8 witness: the `ttl` field is present for a concrete TTL write. -/
theorem C8_witness :
    isInfixL "\"ttl\":".data
      (stringifyItem ⟨"v", 100, (some 5 : Option Int)⟩).data = true :=
  (C8_amended [] "k" "v" (some 5) 100).2.2.2.1 5 rfl

/-- C10: the service returned by `createStorage(T)` reports
`getType() == T` (for both a freshly created and a memoized instance), and
the reported type is invariant under every sequence of storage operations
(`setItem`, `getItem`, `removeItem`, `clear`, `getAllKeys`). -/
theorem C10_type_stable (f : FactoryState) (t : StorageType)
    (s : MockServiceState) (ops : List MSOp) (hwf : FactoryWF f) :
    (∃ sv, alGet (createStorage f t).1 (createStorage f t).2.services = some sv ∧
      msGetType sv = t) ∧
    msGetType (msRun s ops) = msGetType s :=
  ⟨createStorage_service f t hwf, msRun_storageType s ops⟩

/-- C10 witness: concrete run on a fresh factory and service. -/
theorem C10_witness :
    msGetType (msRun mockServiceInit [MSOp.setOp "a" "b", MSOp.clearOp]) =
      msGetType mockServiceInit :=
  (C10_type_stable factoryInit StorageType.MEMORY mockServiceInit
    [MSOp.setOp "a" "b", MSOp.clearOp] factoryInit_WF).2

end DI
